import Mathlib

/-!
Reference-counted `Pointer<T, size>` (gc_pointer.h)

A shallow embedding of the garbage-collecting smart pointer of `gc_pointer.h`.

* Addresses (`T *`) are natural numbers, `0` standing for `nullptr`.
* The static members of one instantiation `Pointer<T, size>` (the list `refContainer`, the flag
  `first`) are threaded explicitly as a value of `Statics`; a member function takes the statics
  before the call and returns the statics after it.
* List iterators are positions: `some i` is the iterator to the `i`-th node, `none` is `end()`.
* `delete` / `delete[]` are recorded in a log (`Statics.freed`), `printf`/`puts` are dropped.
* The template argument `size` is an explicit parameter of every function that mentions it.
-/

namespace GcPointer

/-! ## Records -/

/-- Modelled from the spec: the record type `PtrDetails<T>` lives in gc_details.h, which is not
among the sources.  The spec describes a Record as address, refcount (a non-negative integer),
array flag and length; the field names are the ones gc_pointer.h uses (`memPtr`, `refcount`,
`isArray`) plus `arraySize` for the length. -/
structure PtrDetails where
  memPtr : Nat
  refcount : Nat
  isArray : Bool
  arraySize : Nat
  deriving DecidableEq, Repr

/-- Modelled from the spec: the constructor `PtrDetails(ptr, size)` of gc_details.h, used by
`emplace_back(ptr, size)`.  The new record starts with refcount 1 and is an array record exactly
when the length parameter is positive. -/
def PtrDetails.ctor (ptr : Nat) (size : Int) : PtrDetails :=
  { memPtr := ptr, refcount := 1, isArray := decide (0 < size), arraySize := size.toNat }

/-! ## Static state -/

/-- The static members of `Pointer<T, size>` together with the effects on the outside world that
the member functions have: `exitHooks` counts the calls `atexit(shutdown)`, `freed` logs every
released address with `true` for `delete[]` and `false` for `delete`. -/
structure Statics where
  refContainer : List PtrDetails
  first : Bool
  exitHooks : Nat
  freed : List (Nat × Bool)
  deriving DecidableEq, Repr

/-- Static initialisation: an empty `refContainer` and `first = true`. -/
def Statics.init : Statics :=
  { refContainer := [], first := true, exitHooks := 0, freed := [] }

/-- The member `refContainerSize`. -/
def refContainerSize (s : Statics) : Int :=
  (s.refContainer.length : Int)

/-! ## Looking records up -/

/-- The algorithm `std::find_if` over a list: the position of the first node satisfying the
predicate, `none` for `end()`. -/
def find_if (p : PtrDetails → Bool) : List PtrDetails → Option Nat
  | [] => none
  | d :: ds => if p d then some 0 else (find_if p ds).map (· + 1)

/-- The member `findPtrInfo`: walk the list and return the first node whose `memPtr` is `ptr`. -/
def findPtrInfo : List PtrDetails → Nat → Option Nat
  | [], _ => none
  | d :: ds, ptr => if d.memPtr = ptr then some 0 else (findPtrInfo ds ptr).map (· + 1)

/-! ## registerPointer -/

/-- The statement `(*found).refcount++` on the node itself. -/
def incrRefcount (d : PtrDetails) : PtrDetails :=
  { d with refcount := d.refcount + 1 }

/-- The member `registerPointer`: returns `wasInserted` and the statics after the call. -/
def registerPointer (size : Int) (s : Statics) (ptr : Nat) : Bool × Statics :=
  match find_if (fun ptrDetails => ptrDetails.memPtr == ptr) s.refContainer with
  | some found =>
    (false, { s with refContainer := s.refContainer.modify incrRefcount found })
  | none =>
    (true, { s with refContainer := s.refContainer ++ [PtrDetails.ctor ptr size] })

/-! ## collect -/

/-- What the first loop of `collect` has produced once it reaches `end()`. -/
structure Sweep where
  container : List PtrDetails
  pointersToRemove : List Nat
  deleted : List (Nat × Bool)
  wasMemoryDeallocated : Bool
  deriving DecidableEq, Repr

/-- The first loop of `collect`, run on the nodes from position `current` on.  A node whose
refcount is zero has its iterator pushed, its storage released (`delete[]` for an array record,
`delete` otherwise), its `memPtr` reset to `nullptr` and the flag raised. -/
def collectScan : Nat → List PtrDetails → Sweep
  | _, [] => { container := [], pointersToRemove := [], deleted := [], wasMemoryDeallocated := false }
  | current, ptrDetails :: rest =>
    let tail := collectScan (current + 1) rest
    if ptrDetails.refcount = 0 then
      { container := { ptrDetails with memPtr := 0 } :: tail.container
        pointersToRemove := current :: tail.pointersToRemove
        deleted := (ptrDetails.memPtr, ptrDetails.isArray) :: tail.deleted
        wasMemoryDeallocated := true }
    else
      { tail with container := ptrDetails :: tail.container }

/-- The second loop of `collect`: `refContainer.erase(iter)` for every stored iterator.  Nodes
carry the position they had when the iterators were taken, since erasing a list node leaves the
other iterators valid. -/
def eraseIters (nodes : List (Nat × PtrDetails)) (pointersToRemove : List Nat) :
    List (Nat × PtrDetails) :=
  pointersToRemove.foldl (fun acc iter => acc.filter (fun node => node.1 != iter)) nodes

/-- The member `collect`: returns `wasMemoryDeallocated` and the statics after the call. -/
def collect (s : Statics) : Bool × Statics :=
  let sweep := collectScan 0 s.refContainer
  let kept := eraseIters (sweep.container.enumFrom 0) sweep.pointersToRemove
  (sweep.wasMemoryDeallocated,
    { s with refContainer := kept.map Prod.snd, freed := s.freed ++ sweep.deleted })

/-! ## shutdown -/

/-- The member `shutdown`. -/
def shutdown (s : Statics) : Statics :=
  if refContainerSize s = 0 then s
  else (collect { s with refContainer := s.refContainer.map (fun p => { p with refcount := 0 }) }).2

/-! ## Handles -/

/-- The non-static members of a `Pointer<T, size>` object. -/
structure Pointer where
  addr : Nat
  isArray : Bool
  arraySize : Nat
  deriving DecidableEq, Repr

/-- Conversion of the `int` template argument to the `unsigned` member `arraySize`. -/
def toUnsigned (size : Int) : Nat :=
  (size % 4294967296).toNat

/-- The constructor `Pointer(T *t)`. -/
def Pointer.ctor (size : Int) (s : Statics) (t : Nat) : Statics × Pointer :=
  let this : Pointer := { addr := t, isArray := decide (size > 0), arraySize := toUnsigned size }
  let s1 := if s.first then { s with exitHooks := s.exitHooks + 1 } else s
  let s2 := { s1 with first := false }
  let s3 := if this.addr ≠ 0 then (registerPointer size s2 this.addr).2 else s2
  (s3, this)

/-- The empty constructor `Pointer()`, which delegates to `Pointer(nullptr)`. -/
def Pointer.ctorEmpty (size : Int) (s : Statics) : Statics × Pointer :=
  Pointer.ctor size s 0

/-- The copy constructor.  It assigns `addr` and `isArray` only, so the member `arraySize` of the
new object keeps whatever its storage held: that value is the parameter `indeterminate`.  The
record that was found is copied into the local `info` and the increment is applied to that local,
which dies at the end of the block; the list is not written. -/
def Pointer.copy (s : Statics) (ob : Pointer) (indeterminate : Nat) : Statics × Pointer :=
  let this : Pointer := { addr := ob.addr, isArray := ob.isArray, arraySize := indeterminate }
  match findPtrInfo s.refContainer this.addr with
  | some found =>
    let info : Option PtrDetails := s.refContainer.get? found
    let _info : Option PtrDetails := info.map (fun d => { d with refcount := d.refcount + 1 })
    (s, this)
  | none => (s, this)

/-- The member `cleanup`.  As in the copy constructor the record found is copied into the local
`info`, the decrement is applied to that local, and then `collect` runs on the unchanged list. -/
def Pointer.cleanup (s : Statics) (this : Pointer) : Statics :=
  if this.addr ≠ 0 then
    let s1 :=
      match findPtrInfo s.refContainer this.addr with
      | some found =>
        let info : Option PtrDetails := s.refContainer.get? found
        let _info : Option PtrDetails := info.map (fun d => { d with refcount := d.refcount - 1 })
        s
      | none => s
    (collect s1).2
  else s

/-- The destructor, which only calls `cleanup`. -/
def Pointer.dtor (s : Statics) (this : Pointer) : Statics :=
  Pointer.cleanup s this

/-- The operator `T *operator=(T *t)`: returned address, statics and object after the call. -/
def Pointer.assignRaw (size : Int) (s : Statics) (this : Pointer) (t : Nat) :
    Nat × Statics × Pointer :=
  if this.addr = 0 then
    if t = 0 then (0, s, this)
    else
      let s1 := (registerPointer size s t).2
      (t, s1, { this with addr := t })
  else
    if t = 0 then
      let s1 := Pointer.cleanup s this
      (0, s1, { this with addr := 0 })
    else
      let s1 := Pointer.cleanup s this
      let s2 := (registerPointer size s1 t).2
      (t, s2, { this with addr := t })

/-- The operator `Pointer &operator=(Pointer &rv)`: statics and object after the call. -/
def Pointer.assign (size : Int) (s : Statics) (this rv : Pointer) : Statics × Pointer :=
  if this.addr = 0 then
    if rv.addr ≠ 0 then
      let s1 := (registerPointer size s rv.addr).2
      (s1, { this with addr := rv.addr })
    else (s, this)
  else
    if rv.addr ≠ 0 then
      if this.addr ≠ rv.addr then
        let s1 := Pointer.cleanup s this
        let this1 := { this with addr := rv.addr }
        ((registerPointer size s1 rv.addr).2, this1)
      else
        ((registerPointer size s rv.addr).2, this)
    else
      let s1 := Pointer.cleanup s this
      (s1, { this with addr := 0 })

/-- The operator `bool operator==(const Pointer &other)`. -/
def Pointer.eq (this other : Pointer) : Bool :=
  if !this.isArray && !other.isArray then
    this.addr == other.addr
  else if this.isArray && other.isArray then
    this.addr == other.addr && this.arraySize == other.arraySize
  else false

/-- The exception `std::runtime_error`, with the text it carries. -/
inductive Exception where
  | runtime_error (what : String)
  deriving DecidableEq, Repr

/-- The operator `T &operator*()`.  `mem` gives the value stored at each address and
`prettyFunction` is the text of `__PRETTY_FUNCTION__`.  The outcome, a value or the exception
thrown, comes with the statics and the object after the call. -/
def Pointer.deref {T : Type} (prettyFunction : String) (mem : Nat → T) (s : Statics)
    (this : Pointer) : Except Exception T × Statics × Pointer :=
  if this.addr ≠ 0 then
    (.ok (mem this.addr), s, this)
  else
    (.error (.runtime_error (prettyFunction ++
      ": Unable to dereference an invalid pointer. Assign this object to a valid pointer before dereferencing.")),
      s, this)

/-- The cast `(intptr_t)p` of a 64-bit value: two's complement, so the values from `2^63` on
are negative. -/
def toIntptr (p : Nat) : Int :=
  if p % 18446744073709551616 < 9223372036854775808 then ((p % 18446744073709551616 : Nat) : Int)
  else ((p % 18446744073709551616 : Nat) : Int) - 18446744073709551616

/-- The operator `bool operator==(T *ptr)`, with `sizeOfT` for `sizeof(T)`.  A `T *` is a 64-bit
value, `size_t` is the unsigned and `intptr_t` the signed 64-bit integer type: the product
`sizeof(T) * arraySize` and its sum with the address are taken modulo `2^64`, the sum is stored
in the signed `maxAddress`, and the two comparisons are signed.  Numbers from `2^64` on are the
value of no `T *`; on them the range test is taken on the numbers themselves. -/
def Pointer.eqRaw (sizeOfT : Nat) (this : Pointer) (ptr : Nat) : Bool :=
  if this.isArray then
    this.addr == ptr
  else
    if this.arraySize == 1 then
      this.addr == ptr
    else
      if this.addr < 18446744073709551616 ∧ ptr < 18446744073709551616 then
        let extent : Nat := (sizeOfT * this.arraySize) % 18446744073709551616
        let maxAddress : Int := toIntptr (this.addr + extent)
        decide (toIntptr ptr ≥ toIntptr this.addr) && decide (toIntptr ptr ≤ maxAddress)
      else
        let maxAddress : Int := (this.addr : Int) + ((sizeOfT * this.arraySize : Nat) : Int)
        decide ((ptr : Int) ≥ (this.addr : Int)) && decide ((ptr : Int) ≤ maxAddress)

/-- Modelled from the spec: the cursor type `Iter<T>` lives in gc_iterator.h, which is not among
the sources.  The spec describes a Cursor as position, lower bound and upper bound, and
gc_pointer.h builds one as `Iter<T>(position, lower, upper)`. -/
structure Iter where
  position : Int
  lower : Int
  upper : Int
  deriving DecidableEq, Repr

/-- Conversion of the `unsigned` member `arraySize` to the local `int _size`. -/
def toInt (u : Nat) : Int :=
  if u % 4294967296 < 2147483648 then ((u % 4294967296 : Nat) : Int)
  else ((u % 4294967296 : Nat) : Int) - 4294967296

/-- Pointer arithmetic `p + n` on a `T *`: `n` objects of `sizeOfT` bytes further. -/
def ptrAdd (sizeOfT : Nat) (p : Nat) (n : Int) : Int :=
  (p : Int) + n * (sizeOfT : Int)

/-- The member `begin`: the cursor, and the statics and the object after the call. -/
def Pointer.begin (sizeOfT : Nat) (s : Statics) (this : Pointer) : Iter × Statics × Pointer :=
  let _size : Int := if this.isArray then toInt this.arraySize else 1
  ({ position := (this.addr : Int), lower := (this.addr : Int),
     upper := ptrAdd sizeOfT this.addr _size }, s, this)

/-- The member `end`: the cursor, and the statics and the object after the call. -/
def Pointer.endIter (sizeOfT : Nat) (s : Statics) (this : Pointer) : Iter × Statics × Pointer :=
  let _size : Int := if this.isArray then toInt this.arraySize else 1
  ({ position := ptrAdd sizeOfT this.addr _size, lower := (this.addr : Int),
     upper := ptrAdd sizeOfT this.addr _size }, s, this)

/-- No two records of `refContainer` have the same address. -/
def NoDupAddr (s : Statics) : Prop :=
  (s.refContainer.map (fun d => d.memPtr)).Nodup

instance (s : Statics) : Decidable (NoDupAddr s) := by
  unfold NoDupAddr
  infer_instance

/-! ## Programs over handles

A client program owns a collection of live `Pointer<T, size>` objects and runs the operations of
the class on them one after the other.  Live objects are kept in a list and named by position. -/

/-- The statics of the instantiation together with the objects that are alive. -/
structure World where
  statics : Statics
  handles : List Pointer
  deriving DecidableEq, Repr

/-- Program start: static initialisation done, no object alive. -/
def World.init : World :=
  { statics := Statics.init, handles := [] }

/-- One operation of a client program. -/
inductive Op where
  /-- The declaration `Pointer<T, size> p(t)`; `t = 0` is `Pointer<T, size> p`. -/
  | construct (t : Nat)
  /-- The declaration `Pointer<T, size> c(h)` for the live object `h` at position `i`; the second
  argument is the content of the storage that becomes the member `arraySize` of `c`. -/
  | copy (i : Nat) (indeterminate : Nat)
  /-- The statement `h = t` for the live object `h` at position `i` and the raw address `t`. -/
  | assignRaw (i : Nat) (t : Nat)
  /-- The statement `h = rv` for the live objects at positions `i` and `j`. -/
  | assign (i j : Nat)
  /-- The end of the lifetime of the live object at position `i`. -/
  | destroy (i : Nat)
  deriving DecidableEq, Repr

/-- Run one operation.  An operation naming a position that holds no live object does nothing. -/
def World.step (size : Int) (w : World) : Op → World
  | .construct t =>
    let r := Pointer.ctor size w.statics t
    { statics := r.1, handles := w.handles ++ [r.2] }
  | .copy i indeterminate =>
    match w.handles.get? i with
    | some ob =>
      let r := Pointer.copy w.statics ob indeterminate
      { statics := r.1, handles := w.handles ++ [r.2] }
    | none => w
  | .assignRaw i t =>
    match w.handles.get? i with
    | some h =>
      let r := Pointer.assignRaw size w.statics h t
      { statics := r.2.1, handles := w.handles.set i r.2.2 }
    | none => w
  | .assign i j =>
    match w.handles.get? i, w.handles.get? j with
    | some h, some rv =>
      let r := Pointer.assign size w.statics h rv
      { statics := r.1, handles := w.handles.set i r.2 }
    | _, _ => w
  | .destroy i =>
    match w.handles.get? i with
    | some h => { statics := Pointer.dtor w.statics h, handles := w.handles.eraseIdx i }
    | none => w

/-- Run a program from a given world. -/
def World.run (size : Int) (w : World) (ops : List Op) : World :=
  ops.foldl (World.step size) w

/-- The number of live objects whose `addr` is `a`. -/
def World.liveCount (w : World) (a : Nat) : Nat :=
  w.handles.countP (fun h => h.addr == a)

/-- Every record of `refContainer` counts exactly the live objects bound to its address. -/
def World.RefcountsExact (w : World) : Prop :=
  ∀ d ∈ w.statics.refContainer, d.refcount = w.liveCount d.memPtr

instance (w : World) : Decidable w.RefcountsExact := by
  unfold World.RefcountsExact
  infer_instance

/-- An operation that does not release a bound object and does not bind a second object through
an existing one: construction from a raw address, and copy, either assignment or destruction
applied to an object whose `addr` is null. -/
def Op.onEmpty (w : World) : Op → Bool
  | .construct _ => true
  | .copy i _ => (w.handles.get? i).all (fun h => h.addr == 0)
  | .assignRaw i _ => (w.handles.get? i).all (fun h => h.addr == 0)
  | .assign i _ => (w.handles.get? i).all (fun h => h.addr == 0)
  | .destroy i => (w.handles.get? i).all (fun h => h.addr == 0)

/-- Every operation of the program, at the moment it runs, satisfies `Op.onEmpty`. -/
def World.allOnEmpty (size : Int) : World → List Op → Bool
  | _, [] => true
  | w, op :: ops => op.onEmpty w && World.allOnEmpty size (w.step size op) ops

/-- The bookkeeping is consistent with a census `cnt` of the live objects per address: every
record counts exactly its address, no address has two records, no record is for the null address,
and an address some live object is bound to has a record. -/
def Consistent (rc : List PtrDetails) (cnt : Nat → Nat) : Prop :=
  (∀ d ∈ rc, d.refcount = cnt d.memPtr) ∧ (rc.map (fun d => d.memPtr)).Nodup ∧
    (∀ d ∈ rc, d.memPtr ≠ 0) ∧ (∀ a, a ≠ 0 → (∀ d ∈ rc, d.memPtr ≠ a) → cnt a = 0)

/-! ## Facts about `collect` -/

theorem eraseIters_eq_filter (its : List Nat) (nodes : List (Nat × PtrDetails)) :
    eraseIters nodes its = nodes.filter (fun node => decide (node.1 ∉ its)) := by
  unfold eraseIters
  induction its generalizing nodes with
  | nil => simp
  | cons it its ih =>
    rw [List.foldl_cons, ih, List.filter_filter]
    apply List.filter_congr
    intro node _
    by_cases h1 : node.1 = it <;> by_cases h2 : node.1 ∈ its <;> simp [h1, h2]

theorem collectScan_iters_ge (l : List PtrDetails) (i : Nat) :
    ∀ x ∈ (collectScan i l).pointersToRemove, i ≤ x := by
  induction l generalizing i with
  | nil => simp [collectScan]
  | cons d ds ih =>
    intro x hx
    by_cases h : d.refcount = 0
    · simp only [collectScan, h, if_true, List.mem_cons] at hx
      rcases hx with hx | hx
      · omega
      · have := ih (i + 1) x hx
        omega
    · simp only [collectScan, h, if_false] at hx
      have := ih (i + 1) x hx
      omega

theorem collectScan_kept (l : List PtrDetails) (i : Nat) :
    (((collectScan i l).container.enumFrom i).filter
        (fun node => decide (node.1 ∉ (collectScan i l).pointersToRemove))).map Prod.snd
      = l.filter (fun d => decide (0 < d.refcount)) := by
  induction l generalizing i with
  | nil => simp [collectScan]
  | cons d ds ih =>
    have hge := collectScan_iters_ge ds (i + 1)
    have hnot : i ∉ (collectScan (i + 1) ds).pointersToRemove := by
      intro hmem
      have := hge i hmem
      omega
    have hcongr : ∀ node ∈ (collectScan (i + 1) ds).container.enumFrom (i + 1),
        decide (node.1 ∉ i :: (collectScan (i + 1) ds).pointersToRemove)
          = decide (node.1 ∉ (collectScan (i + 1) ds).pointersToRemove) := by
      intro node hnode
      have hle := List.le_fst_of_mem_enumFrom hnode
      have hne : node.1 ≠ i := by omega
      simp [hne]
    by_cases h : d.refcount = 0
    · simp only [collectScan, h, if_true, List.enumFrom_cons]
      rw [List.filter_cons_of_neg (by simp), List.filter_congr hcongr, ih (i + 1)]
      rw [List.filter_cons_of_neg (by simp [h])]
    · have hpos : 0 < d.refcount := Nat.pos_of_ne_zero h
      simp only [collectScan, h, if_false, List.enumFrom_cons]
      rw [List.filter_cons_of_pos (by simpa using hnot), List.map_cons, ih (i + 1)]
      rw [List.filter_cons_of_pos (by simpa using hpos)]

theorem collectScan_flag (l : List PtrDetails) (i : Nat) :
    (collectScan i l).wasMemoryDeallocated = l.any (fun d => decide (d.refcount = 0)) := by
  induction l generalizing i with
  | nil => simp [collectScan]
  | cons d ds ih =>
    by_cases h : d.refcount = 0
    · simp [collectScan, h]
    · simp [collectScan, h, ih (i + 1)]

theorem collectScan_deleted (l : List PtrDetails) (i : Nat) :
    (collectScan i l).deleted
      = (l.filter (fun d => decide (d.refcount = 0))).map (fun d => (d.memPtr, d.isArray)) := by
  induction l generalizing i with
  | nil => simp [collectScan]
  | cons d ds ih =>
    by_cases h : d.refcount = 0
    · simp [collectScan, h, ih (i + 1)]
    · simp [collectScan, h, ih (i + 1)]

theorem collect_refContainer (s : Statics) :
    (collect s).2.refContainer = s.refContainer.filter (fun d => decide (0 < d.refcount)) := by
  simp only [collect]
  rw [eraseIters_eq_filter]
  exact collectScan_kept s.refContainer 0

theorem collect_flag (s : Statics) :
    (collect s).1 = s.refContainer.any (fun d => decide (d.refcount = 0)) := by
  simp only [collect]
  exact collectScan_flag s.refContainer 0

theorem collect_eq (s : Statics) :
    collect s =
      (s.refContainer.any (fun d => decide (d.refcount = 0)),
        { s with
          refContainer := s.refContainer.filter (fun d => decide (0 < d.refcount))
          freed := s.freed ++
            (s.refContainer.filter (fun d => decide (d.refcount = 0))).map
              (fun d => (d.memPtr, d.isArray)) }) := by
  have h1 := collect_refContainer s
  have h2 := collect_flag s
  have h3 : (collect s).2.freed = s.freed ++ (collectScan 0 s.refContainer).deleted := rfl
  have h4 : (collect s).2.first = s.first := rfl
  have h5 : (collect s).2.exitHooks = s.exitHooks := rfl
  rw [collectScan_deleted] at h3
  rcases hc : collect s with ⟨b, t⟩
  rw [hc] at h1 h2 h3 h4 h5
  cases t
  cases s
  simp only at h1 h2 h3 h4 h5
  simp [h1, h2, h3, h4, h5]

/-! ## Facts about `registerPointer` -/

theorem find_if_eq_none (p : PtrDetails → Bool) (l : List PtrDetails) :
    find_if p l = none ↔ ∀ d ∈ l, p d = false := by
  induction l with
  | nil => simp [find_if]
  | cons d ds ih =>
    by_cases h : p d = true
    · simp [find_if, h]
    · simp only [Bool.not_eq_true] at h
      simp [find_if, h, ih]

theorem find_if_eq_some (p : PtrDetails → Bool) (f : PtrDetails → PtrDetails)
    (l : List PtrDetails) (i : Nat) (h : find_if p l = some i) :
    ∃ pre d post, l = pre ++ d :: post ∧ (∀ e ∈ pre, p e = false) ∧ p d = true ∧
      l.modify f i = pre ++ f d :: post := by
  induction l generalizing i with
  | nil => simp [find_if] at h
  | cons d ds ih =>
    by_cases hd : p d = true
    · simp only [find_if, hd, if_true, Option.some.injEq] at h
      subst h
      exact ⟨[], d, ds, rfl, by simp, hd, by simp⟩
    · rw [find_if, if_neg hd] at h
      cases hj : find_if p ds with
      | none => simp [hj] at h
      | some j =>
      rw [hj] at h
      have h : j + 1 = i := by simpa using h
      subst h
      obtain ⟨pre, e, post, hl, hpre, he, hmod⟩ := ih j hj
      refine ⟨d :: pre, e, post, by simp [hl], ?_, he, ?_⟩
      · intro x hx
        rcases List.mem_cons.mp hx with rfl | hx
        · simpa using hd
        · exact hpre x hx
      · simp [List.modify_succ_cons, hmod]

theorem findPtrInfo_eq_find_if (l : List PtrDetails) (ptr : Nat) :
    findPtrInfo l ptr = find_if (fun d => d.memPtr == ptr) l := by
  induction l with
  | nil => rfl
  | cons d ds ih => simp [findPtrInfo, find_if, ih]

theorem registerPointer_found (size : Int) (s : Statics) (ptr : Nat)
    (h : ∃ e ∈ s.refContainer, e.memPtr = ptr) :
    ∃ pre d post, s.refContainer = pre ++ d :: post ∧ (∀ e ∈ pre, e.memPtr ≠ ptr) ∧
      d.memPtr = ptr ∧
      registerPointer size s ptr =
        (false, { s with refContainer := pre ++ { d with refcount := d.refcount + 1 } :: post }) := by
  cases hf : find_if (fun d => d.memPtr == ptr) s.refContainer with
  | none =>
    obtain ⟨e, he, hptr⟩ := h
    have := (find_if_eq_none _ _).mp hf e he
    simp [hptr] at this
  | some i =>
    obtain ⟨pre, d, post, hl, hpre, hd, hmod⟩ := find_if_eq_some _ incrRefcount _ i hf
    refine ⟨pre, d, post, hl, ?_, by simpa using hd, ?_⟩
    · intro e he
      simpa using hpre e he
    · simp only [registerPointer, hf, hmod, incrRefcount]

theorem registerPointer_fresh (size : Int) (s : Statics) (ptr : Nat)
    (h : ∀ e ∈ s.refContainer, e.memPtr ≠ ptr) :
    registerPointer size s ptr =
      (true, { s with refContainer := s.refContainer ++ [PtrDetails.ctor ptr size] }) := by
  have hf : find_if (fun d => d.memPtr == ptr) s.refContainer = none := by
    rw [find_if_eq_none]
    intro d hd
    simpa using h d hd
  simp only [registerPointer, hf]

/-! ## Consistency of the bookkeeping -/

theorem registerPointer_refContainer_congr (size : Int) (s t : Statics) (ptr : Nat)
    (h : s.refContainer = t.refContainer) :
    (registerPointer size s ptr).2.refContainer = (registerPointer size t ptr).2.refContainer := by
  simp only [registerPointer, h]
  cases find_if (fun d => d.memPtr == ptr) t.refContainer <;> rfl

theorem Consistent.neutral {rc : List PtrDetails} {cnt cnt2 : Nat → Nat}
    (h : Consistent rc cnt) (hc : ∀ a, a ≠ 0 → cnt2 a = cnt a) : Consistent rc cnt2 := by
  obtain ⟨h1, h2, h3, h4⟩ := h
  refine ⟨?_, h2, h3, ?_⟩
  · intro d hd
    rw [hc _ (h3 d hd)]
    exact h1 d hd
  · intro a ha hno
    rw [hc a ha]
    exact h4 a ha hno

theorem Consistent.bind {size : Int} {s : Statics} {cnt cnt2 : Nat → Nat} {t : Nat}
    (h : Consistent s.refContainer cnt) (ht : t ≠ 0)
    (hc : ∀ a, a ≠ 0 → cnt2 a = cnt a + if a = t then 1 else 0) :
    Consistent (registerPointer size s t).2.refContainer cnt2 := by
  obtain ⟨h1, h2, h3, h4⟩ := h
  by_cases hex : ∃ e ∈ s.refContainer, e.memPtr = t
  · obtain ⟨pre, d, post, hl, hpre, hd, hreg⟩ := registerPointer_found size s t hex
    rw [hreg]
    simp only
    rw [hl] at h1 h2 h3 h4
    have hpost : ∀ e ∈ post, e.memPtr ≠ t := by
      intro e he heq
      simp only [List.map_append, List.map_cons] at h2
      have hnd := (List.nodup_append.mp h2).2.1
      have hnotin := (List.nodup_cons.mp hnd).1
      apply hnotin
      rw [hd, ← heq]
      exact List.mem_map_of_mem _ he
    refine ⟨?_, ?_, ?_, ?_⟩
    · intro e he
      rcases List.mem_append.mp he with he | he
      · have hne := hpre e he
        rw [hc _ (h3 e (by simp [he])), if_neg hne, Nat.add_zero]
        exact h1 e (by simp [he])
      · rcases List.mem_cons.mp he with rfl | he
        · simp only
          rw [hd, hc t ht, if_pos rfl, ← hd]
          rw [h1 d (by simp)]
        · have hne := hpost e he
          rw [hc _ (h3 e (by simp [he])), if_neg hne, Nat.add_zero]
          exact h1 e (by simp [he])
    · simpa using h2
    · intro e he
      rcases List.mem_append.mp he with he | he
      · exact h3 e (by simp [he])
      · rcases List.mem_cons.mp he with rfl | he
        · simpa [hd] using ht
        · exact h3 e (by simp [he])
    · intro a ha hno
      have hat : a ≠ t := by
        intro heq
        exact hno { d with refcount := d.refcount + 1 } (by simp) (by simp [hd, heq])
      rw [hc a ha, if_neg hat, Nat.add_zero]
      apply h4 a ha
      intro e he
      rcases List.mem_append.mp he with he | he
      · exact hno e (by simp [he])
      · rcases List.mem_cons.mp he with rfl | he
        · rw [hd]
          exact fun h => hat h.symm
        · exact hno e (by simp [he])
  · have hfresh : ∀ e ∈ s.refContainer, e.memPtr ≠ t := by
      intro e he heq
      exact hex ⟨e, he, heq⟩
    rw [registerPointer_fresh size s t hfresh]
    simp only
    refine ⟨?_, ?_, ?_, ?_⟩
    · intro e he
      rcases List.mem_append.mp he with he | he
      · rw [hc _ (h3 e he), if_neg (hfresh e he), Nat.add_zero]
        exact h1 e he
      · have he : e = PtrDetails.ctor t size := by simpa using he
        subst he
        simp only [PtrDetails.ctor]
        rw [hc t ht, if_pos rfl, h4 t ht hfresh]
    · rw [List.map_append, List.nodup_append]
      refine ⟨h2, by simp, ?_⟩
      intro a ha hb
      have hb : a = t := by simpa [PtrDetails.ctor] using hb
      subst hb
      obtain ⟨e, he, heq⟩ := List.mem_map.mp ha
      exact hfresh e he heq
    · intro e he
      rcases List.mem_append.mp he with he | he
      · exact h3 e he
      · have he : e = PtrDetails.ctor t size := by simpa using he
        subst he
        simpa [PtrDetails.ctor] using ht
    · intro a ha hno
      have hat : a ≠ t := by
        intro heq
        exact hno (PtrDetails.ctor t size) (by simp) (by simp [PtrDetails.ctor, heq])
      rw [hc a ha, if_neg hat, Nat.add_zero]
      apply h4 a ha
      intro e he
      exact hno e (by simp [he])

/-! ## Facts about the handle operations -/

theorem Pointer.copy_eq (s : Statics) (ob : Pointer) (indeterminate : Nat) :
    Pointer.copy s ob indeterminate
      = (s, { addr := ob.addr, isArray := ob.isArray, arraySize := indeterminate }) := by
  cases h : findPtrInfo s.refContainer ob.addr <;> simp [Pointer.copy, h]

theorem Pointer.cleanup_eq (s : Statics) (this : Pointer) :
    Pointer.cleanup s this = if this.addr ≠ 0 then (collect s).2 else s := by
  unfold Pointer.cleanup
  cases findPtrInfo s.refContainer this.addr <;> rfl

theorem Pointer.ctor_refContainer (size : Int) (s : Statics) (t : Nat) :
    (Pointer.ctor size s t).1.refContainer
      = if t ≠ 0 then (registerPointer size s t).2.refContainer else s.refContainer := by
  unfold Pointer.ctor
  by_cases ht : t = 0
  · cases hf : s.first <;> simp [ht]
  · simp only [ne_eq, ht, not_false_eq_true, if_true]
    apply registerPointer_refContainer_congr
    cases hf : s.first <;> simp

theorem Pointer.ctor_addr (size : Int) (s : Statics) (t : Nat) :
    (Pointer.ctor size s t).2.addr = t := rfl

theorem Pointer.assign_addr (size : Int) (s : Statics) (this rv : Pointer) :
    (Pointer.assign size s this rv).2.addr = rv.addr := by
  unfold Pointer.assign
  by_cases h1 : this.addr = 0 <;> by_cases h2 : rv.addr = 0 <;>
    by_cases h3 : this.addr = rv.addr <;> simp [h1, h2, h3]

theorem Pointer.assign_shape (size : Int) (s : Statics) (this rv : Pointer) :
    (Pointer.assign size s this rv).2.isArray = this.isArray ∧
      (Pointer.assign size s this rv).2.arraySize = this.arraySize := by
  unfold Pointer.assign
  by_cases h1 : this.addr = 0 <;> by_cases h2 : rv.addr = 0 <;>
    by_cases h3 : this.addr = rv.addr <;> simp [h1, h2, h3]

theorem Pointer.eq_after_assign (size : Int) (s : Statics) (this rv : Pointer)
    (hflag : this.isArray = rv.isArray) (hlen : this.arraySize = rv.arraySize) :
    Pointer.eq (Pointer.assign size s this rv).2 rv = true := by
  have ha := Pointer.assign_addr size s this rv
  obtain ⟨hf, hl⟩ := Pointer.assign_shape size s this rv
  unfold Pointer.eq
  rw [ha, hf, hl, hflag, hlen]
  cases rv.isArray <;> simp

theorem countP_eraseIdx_of_get? {α : Type} (p : α → Bool) (l : List α) (i : Nat) (a : α)
    (h : l.get? i = some a) :
    List.countP p (l.eraseIdx i) = List.countP p l - if p a = true then 1 else 0 := by
  induction l generalizing i with
  | nil => simp at h
  | cons b bs ih =>
    cases i with
    | zero =>
      have hb : b = a := by simpa using h
      subst hb
      simp [List.countP_cons]
    | succ j =>
      have hj : bs.get? j = some a := by simpa using h
      have hle : (if p a = true then 1 else 0) ≤ List.countP p bs := by
        by_cases hp : p a = true
        · simp only [hp, if_true]
          have hmem : a ∈ bs := List.mem_iff_get?.mpr ⟨j, hj⟩
          exact List.countP_pos_iff.mpr ⟨a, hmem, hp⟩
        · simp [hp]
      rw [List.eraseIdx_cons_succ, List.countP_cons, List.countP_cons, ih j hj]
      omega

/-! ## Programs that only act on empty handles -/

theorem liveCount_append (s s0 : Statics) (hs : List Pointer) (h : Pointer) (a : Nat) :
    World.liveCount { statics := s, handles := hs ++ [h] } a
      = World.liveCount { statics := s0, handles := hs } a + if h.addr = a then 1 else 0 := by
  simp [World.liveCount, List.countP_append, List.countP_cons]

theorem liveCount_set (s s0 : Statics) (hs : List Pointer) (i : Nat) (h h2 : Pointer) (a : Nat)
    (hget : hs.get? i = some h) (hempty : h.addr = 0) (ha : a ≠ 0) :
    World.liveCount { statics := s, handles := hs.set i h2 } a
      = World.liveCount { statics := s0, handles := hs } a + if h2.addr = a then 1 else 0 := by
  rw [List.get?_eq_some] at hget
  obtain ⟨hlt, hget⟩ := hget
  have hget : hs[i] = h := by simpa using hget
  have hne : ¬ (h.addr = a) := by
    rw [hempty]
    exact fun h0 => ha h0.symm
  simp [World.liveCount, List.countP_set _ _ _ _ hlt, hget, hne]

theorem liveCount_eraseIdx (s s0 : Statics) (hs : List Pointer) (i : Nat) (h : Pointer) (a : Nat)
    (hget : hs.get? i = some h) (hempty : h.addr = 0) (ha : a ≠ 0) :
    World.liveCount { statics := s, handles := hs.eraseIdx i } a
      = World.liveCount { statics := s0, handles := hs } a := by
  have hne : ¬ (h.addr = a) := by
    rw [hempty]
    exact fun h0 => ha h0.symm
  simp [World.liveCount, countP_eraseIdx_of_get? _ _ _ _ hget, hne]

theorem step_consistent (size : Int) (w : World) (op : Op)
    (h : Consistent w.statics.refContainer w.liveCount) (hop : op.onEmpty w = true) :
    Consistent (w.step size op).statics.refContainer (w.step size op).liveCount := by
  obtain ⟨s, hs⟩ := w
  cases op with
  | construct t =>
    simp only [World.step]
    rw [Pointer.ctor_refContainer]
    by_cases ht : t = 0
    · simp only [ht, ne_eq, not_true_eq_false, if_false]
      apply h.neutral
      intro a ha
      rw [liveCount_append _ s]
      have : ¬ ((Pointer.ctor size s 0).2.addr = a) := fun h0 => ha h0.symm
      simp [this]
    · simp only [ne_eq, ht, not_false_eq_true, if_true]
      apply h.bind ht
      intro a _
      rw [liveCount_append _ s, Pointer.ctor_addr]
      by_cases hat : a = t
      · simp [hat]
      · have : ¬ (t = a) := fun h0 => hat h0.symm
        simp [hat, this]
  | copy i u =>
    simp only [World.step]
    cases hget : hs.get? i with
    | none => simpa [World.liveCount] using h
    | some ob =>
      simp only [Op.onEmpty, hget, Option.all_some, beq_iff_eq] at hop
      simp only [Pointer.copy_eq]
      apply h.neutral
      intro a ha
      rw [liveCount_append _ s]
      have : ¬ (ob.addr = a) := by
        rw [hop]
        exact fun h0 => ha h0.symm
      simp [this]
  | assignRaw i t =>
    simp only [World.step]
    cases hget : hs.get? i with
    | none => simpa [World.liveCount] using h
    | some ob =>
      simp only [Op.onEmpty, hget, Option.all_some, beq_iff_eq] at hop
      by_cases ht : t = 0
      · simp only [Pointer.assignRaw, hop, ht, if_true]
        apply h.neutral
        intro a ha
        rw [liveCount_set s s hs i ob ob a hget hop ha]
        have : ¬ (ob.addr = a) := by
          rw [hop]
          exact fun h0 => ha h0.symm
        simp [this]
      · simp only [Pointer.assignRaw, hop, ht, if_true, if_false]
        apply h.bind ht
        intro a ha
        rw [liveCount_set _ s hs i ob _ a hget hop ha]
        by_cases hat : a = t
        · simp [hat]
        · have : ¬ (t = a) := fun h0 => hat h0.symm
          simp [hat, this]
  | assign i j =>
    simp only [World.step]
    cases hget : hs.get? i with
    | none => simpa [World.liveCount] using h
    | some ob =>
      cases hgetj : hs.get? j with
      | none => simpa [World.liveCount] using h
      | some rv =>
        simp only [Op.onEmpty, hget, Option.all_some, beq_iff_eq] at hop
        by_cases ht : rv.addr = 0
        · simp only [Pointer.assign, hop, ht, ne_eq, not_true_eq_false, if_true, if_false]
          apply h.neutral
          intro a ha
          rw [liveCount_set s s hs i ob ob a hget hop ha]
          have : ¬ (ob.addr = a) := by
            rw [hop]
            exact fun h0 => ha h0.symm
          simp [this]
        · simp only [Pointer.assign, hop, ht, ne_eq, not_false_eq_true, if_true]
          apply h.bind ht
          intro a ha
          rw [liveCount_set _ s hs i ob _ a hget hop ha]
          by_cases hat : a = rv.addr
          · simp [hat]
          · have : ¬ (rv.addr = a) := fun h0 => hat h0.symm
            simp [hat, this]
  | destroy i =>
    simp only [World.step]
    cases hget : hs.get? i with
    | none => simpa [World.liveCount] using h
    | some ob =>
      simp only [Op.onEmpty, hget, Option.all_some, beq_iff_eq] at hop
      simp only [Pointer.dtor, Pointer.cleanup_eq, hop, ne_eq, not_true_eq_false, if_false]
      apply h.neutral
      intro a ha
      rw [liveCount_eraseIdx _ s hs i ob a hget hop ha]

theorem run_consistent (size : Int) (ops : List Op) (w : World)
    (h : Consistent w.statics.refContainer w.liveCount)
    (hops : World.allOnEmpty size w ops = true) :
    Consistent (w.run size ops).statics.refContainer (w.run size ops).liveCount := by
  induction ops generalizing w with
  | nil => simpa [World.run] using h
  | cons op ops ih =>
    simp only [World.allOnEmpty, Bool.and_eq_true] at hops
    have := ih (w.step size op) (step_consistent size w op h hops.1) hops.2
    simpa [World.run] using this

theorem init_consistent : Consistent World.init.statics.refContainer World.init.liveCount := by
  refine ⟨?_, ?_, ?_, ?_⟩ <;> simp [World.init, Statics.init, World.liveCount]

/-! ## Records after `registerPointer`, and distinct addresses -/

theorem registerPointer_has_record (size : Int) (s : Statics) (ptr : Nat) :
    ∃ d ∈ (registerPointer size s ptr).2.refContainer, d.memPtr = ptr ∧ 1 ≤ d.refcount := by
  by_cases hex : ∃ e ∈ s.refContainer, e.memPtr = ptr
  · obtain ⟨pre, d, post, _, _, hd, hreg⟩ := registerPointer_found size s ptr hex
    rw [hreg]
    exact ⟨{ d with refcount := d.refcount + 1 }, by simp, hd, by simp⟩
  · have hfresh : ∀ e ∈ s.refContainer, e.memPtr ≠ ptr := fun e he heq => hex ⟨e, he, heq⟩
    rw [registerPointer_fresh size s ptr hfresh]
    exact ⟨PtrDetails.ctor ptr size, by simp, rfl, by simp [PtrDetails.ctor]⟩

theorem NoDupAddr.congr {s t : Statics} (h : NoDupAddr s)
    (hrc : t.refContainer = s.refContainer) : NoDupAddr t := by
  unfold NoDupAddr at *
  rw [hrc]
  exact h

theorem NoDupAddr.after_registerPointer {s : Statics} (h : NoDupAddr s) (size : Int) (ptr : Nat) :
    NoDupAddr (registerPointer size s ptr).2 := by
  unfold NoDupAddr at *
  by_cases hex : ∃ e ∈ s.refContainer, e.memPtr = ptr
  · obtain ⟨pre, d, post, hl, _, _, hreg⟩ := registerPointer_found size s ptr hex
    rw [hreg]
    rw [hl] at h
    simpa using h
  · have hfresh : ∀ e ∈ s.refContainer, e.memPtr ≠ ptr := fun e he heq => hex ⟨e, he, heq⟩
    rw [registerPointer_fresh size s ptr hfresh]
    simp only [List.map_append, List.map_cons, List.map_nil]
    rw [List.nodup_append]
    refine ⟨h, by simp, ?_⟩
    intro a ha hb
    have hb : a = ptr := by simpa [PtrDetails.ctor] using hb
    subst hb
    obtain ⟨e, he, heq⟩ := List.mem_map.mp ha
    exact hfresh e he heq

theorem NoDupAddr.after_collect {s : Statics} (h : NoDupAddr s) : NoDupAddr (collect s).2 := by
  unfold NoDupAddr at *
  rw [collect_refContainer]
  exact h.sublist (List.Sublist.map _ (List.filter_sublist _))

theorem NoDupAddr.after_cleanup {s : Statics} (h : NoDupAddr s) (this : Pointer) :
    NoDupAddr (Pointer.cleanup s this) := by
  rw [Pointer.cleanup_eq]
  by_cases ha : this.addr = 0
  · simpa [ha] using h
  · simpa [ha] using h.after_collect

theorem toInt_of_lt (u : Nat) (h : u < 2147483648) : toInt u = (u : Int) := by
  have hmod : u % 4294967296 = u := Nat.mod_eq_of_lt (by omega)
  simp [toInt, hmod, h]

/-! ## Properties of the specification -/

/-- C1, as stated, fails: two objects are constructed from the same raw address 100 (the record
then counts 2, which is exact) and the first is assigned the second.  Both already hold address
100, so `operator=(Pointer &)` only calls `registerPointer` again and the record counts 3 while
two objects are bound to the address. -/
theorem refcounts_not_exact_after_same_address_assign :
    ¬ (World.run 0 World.init [.construct 100, .construct 100, .assign 0 1]).RefcountsExact := by
  decide

/-- C1, amended: in every state reached from the empty registry by construction from a raw
address and by copy construction, raw assignment, Pointer-to-Pointer assignment and destruction
applied to objects whose address is null, every record of `refContainer` has a refcount equal to
the number of live objects whose `addr` is the address of the record. -/
theorem refcounts_exact_of_allOnEmpty (size : Int) (ops : List Op)
    (h : World.allOnEmpty size World.init ops = true) :
    (World.run size World.init ops).RefcountsExact :=
  (run_consistent size ops World.init init_consistent h).1

/-- C1, amended, at a program that shares address 100 between three objects and binds a fourth
one to address 200. -/
theorem refcounts_exact_of_allOnEmpty_witness :
    World.allOnEmpty 0 World.init
        [.construct 100, .construct 100, .construct 0, .assign 2 0, .construct 0,
          .assignRaw 3 200, .construct 0, .copy 4 9, .destroy 4, .assignRaw 4 0] = true ∧
      (World.run 0 World.init
        [.construct 100, .construct 100, .construct 0, .assign 2 0, .construct 0,
          .assignRaw 3 200, .construct 0, .copy 4 9, .destroy 4, .assignRaw 4 0]).RefcountsExact :=
  ⟨by decide, refcounts_exact_of_allOnEmpty 0 _ (by decide)⟩

/-- C2: `registerPointer(ptr)` is an upsert.  When some record has address `ptr`, the list splits
around the first such record `d`, the list after the call is the same list with the refcount of
`d` one higher, nothing is added and the result is `false`.  When no record has address `ptr`,
the list after the call is the old list followed by one record with address `ptr` and refcount 1,
and the result is `true`.  The other statics are untouched in both cases. -/
theorem registerPointer_upsert (size : Int) (s : Statics) (ptr : Nat) :
    ((∃ e ∈ s.refContainer, e.memPtr = ptr) →
      ∃ pre d post, s.refContainer = pre ++ d :: post ∧ (∀ e ∈ pre, e.memPtr ≠ ptr) ∧
        d.memPtr = ptr ∧
        registerPointer size s ptr =
          (false,
            { s with refContainer := pre ++ { d with refcount := d.refcount + 1 } :: post })) ∧
    ((¬ ∃ e ∈ s.refContainer, e.memPtr = ptr) →
      registerPointer size s ptr =
        (true,
          { s with
            refContainer := s.refContainer ++
              [{ memPtr := ptr, refcount := 1, isArray := decide (0 < size),
                 arraySize := size.toNat }] })) := by
  constructor
  · exact registerPointer_found size s ptr
  · intro hno
    have hfresh : ∀ e ∈ s.refContainer, e.memPtr ≠ ptr := fun e he heq => hno ⟨e, he, heq⟩
    rw [registerPointer_fresh size s ptr hfresh]
    rfl

/-- C3, evaluated at the failing input: an object is constructed from the raw address 100, so
the record of 100 has refcount 1, and a second object is copy constructed from it.  The record
still has refcount 1 afterwards: the copy constructor increments a local copy of the record. -/
theorem copy_leaves_refcount :
    (Pointer.copy (Pointer.ctor 0 Statics.init 100).1 (Pointer.ctor 0 Statics.init 100).2 0).1.refContainer
      = [{ memPtr := 100, refcount := 1, isArray := false, arraySize := 0 }] := by
  decide

/-- C4, evaluated at the failing input: two objects are constructed from the raw address 100, so
the record of 100 has refcount 2, and the second object is destroyed.  The record still has
refcount 2 afterwards: `cleanup` decrements a local copy of the record. -/
theorem dtor_leaves_refcount :
    (Pointer.ctor 0 (Pointer.ctor 0 Statics.init 100).1 100).1.refContainer
        = [{ memPtr := 100, refcount := 2, isArray := false, arraySize := 0 }] ∧
      (Pointer.dtor (Pointer.ctor 0 (Pointer.ctor 0 Statics.init 100).1 100).1
          (Pointer.ctor 0 (Pointer.ctor 0 Statics.init 100).1 100).2).refContainer
        = [{ memPtr := 100, refcount := 2, isArray := false, arraySize := 0 }] := by
  decide

/-- C5, evaluated at the failing input: the only object bound to address 100 is assigned the raw
address 200.  The call returns 200 and the object holds 200, whose new record has refcount 1, but
the record of 100 is still in the list with refcount 1 and nothing was released. -/
theorem assignRaw_keeps_old_record :
    Pointer.assignRaw 0 (Pointer.ctor 0 Statics.init 100).1 (Pointer.ctor 0 Statics.init 100).2 200
      = (200,
          { refContainer := [{ memPtr := 100, refcount := 1, isArray := false, arraySize := 0 },
                             { memPtr := 200, refcount := 1, isArray := false, arraySize := 0 }]
            first := false, exitHooks := 1, freed := [] },
          { addr := 200, isArray := false, arraySize := 0 }) := by
  decide

/-- C6: `collect` keeps exactly the records with a positive refcount, unchanged and in their
order, and removes the others; it returns `true` exactly when some record had refcount 0. -/
theorem collect_removes_exactly_zero_refcount (s : Statics) :
    (collect s).2.refContainer = s.refContainer.filter (fun d => decide (0 < d.refcount)) ∧
      ((collect s).1 = true ↔ ∃ d ∈ s.refContainer, d.refcount = 0) := by
  refine ⟨collect_refContainer s, ?_⟩
  rw [collect_flag, List.any_eq_true]
  simp

/-- C7: a second `collect` right after a first one returns `false` and leaves the statics as the
first call left them; on an empty `refContainer`, `collect` returns `false` and changes nothing. -/
theorem collect_idempotent (s : Statics) :
    collect (collect s).2 = (false, (collect s).2) ∧
      collect { s with refContainer := [] } = (false, { s with refContainer := [] }) := by
  constructor
  · have hnone : ∀ d ∈ (collect s).2.refContainer, ¬ d.refcount = 0 := by
      intro d hd
      rw [collect_refContainer] at hd
      have := (List.mem_filter.mp hd).2
      simp only [decide_eq_true_eq] at this
      omega
    rw [collect_eq (collect s).2]
    have hany : (collect s).2.refContainer.any (fun d => decide (d.refcount = 0)) = false := by
      rw [List.any_eq_false]
      intro d hd
      simpa using hnone d hd
    have hkeep : (collect s).2.refContainer.filter (fun d => decide (0 < d.refcount))
        = (collect s).2.refContainer := by
      rw [List.filter_eq_self]
      intro d hd
      have := hnone d hd
      simp only [decide_eq_true_eq]
      omega
    have hdrop : (collect s).2.refContainer.filter (fun d => decide (d.refcount = 0)) = [] := by
      rw [List.filter_eq_nil_iff]
      intro d hd
      simpa using hnone d hd
    rw [hany, hkeep, hdrop]
    simp
  · rw [collect_eq]
    simp

/-- C9, evaluated at the failing input, for `Pointer<T, 13>`: `q` is constructed from the raw
address 100, `p` is copy constructed from an empty object and its member `arraySize`, which the
copy constructor does not assign, holds 0.  After `p = q` the address of `p` is the address of
`q`, but `p == q` is `false`, since both are array objects and the lengths 0 and 13 differ. -/
theorem assign_then_eq_false :
    (Pointer.assign 13 (Pointer.ctor 13 Statics.init 100).1
        (Pointer.copy Statics.init (Pointer.ctorEmpty 13 Statics.init).2 0).2
        (Pointer.ctor 13 Statics.init 100).2).2.addr = (Pointer.ctor 13 Statics.init 100).2.addr ∧
      Pointer.eq
        (Pointer.assign 13 (Pointer.ctor 13 Statics.init 100).1
          (Pointer.copy Statics.init (Pointer.ctorEmpty 13 Statics.init).2 0).2
          (Pointer.ctor 13 Statics.init 100).2).2
        (Pointer.ctor 13 Statics.init 100).2 = false := by
  decide

/-- C10, evaluated at the failing input, for `Pointer<T, 13>`: `h` is constructed from the raw
address 100 and `c` is copy constructed from `h` into storage holding 0.  `c` has the address and
the array flag of `h` but not its length, and `c == h` is `false`. -/
theorem copy_then_eq_false :
    (Pointer.copy (Pointer.ctor 13 Statics.init 100).1 (Pointer.ctor 13 Statics.init 100).2 0).2
        = { addr := 100, isArray := true, arraySize := 0 } ∧
      (Pointer.ctor 13 Statics.init 100).2 = { addr := 100, isArray := true, arraySize := 13 } ∧
      Pointer.eq
        (Pointer.copy (Pointer.ctor 13 Statics.init 100).1 (Pointer.ctor 13 Statics.init 100).2 0).2
        (Pointer.ctor 13 Statics.init 100).2 = false := by
  decide

/-- C11: when `h` and `rv` are bound to the same address `A` and `A` has a record, `h = rv`
raises the refcount of the (first) record of `A` by exactly one, leaves every other record and
the length of the list as they were, and leaves `h`, and so its address `A`, unchanged. -/
theorem assign_same_address_reincrements (size : Int) (s : Statics) (h rv : Pointer)
    (hbound : h.addr ≠ 0) (hsame : rv.addr = h.addr)
    (hrec : ∃ e ∈ s.refContainer, e.memPtr = h.addr) :
    ∃ pre d post, s.refContainer = pre ++ d :: post ∧ (∀ e ∈ pre, e.memPtr ≠ h.addr) ∧
      d.memPtr = h.addr ∧
      Pointer.assign size s h rv =
        ({ s with refContainer := pre ++ { d with refcount := d.refcount + 1 } :: post }, h) := by
  obtain ⟨pre, d, post, hl, hpre, hd, hreg⟩ := registerPointer_found size s h.addr hrec
  refine ⟨pre, d, post, hl, hpre, hd, ?_⟩
  simp only [Pointer.assign, hsame, hbound, ne_eq, not_true_eq_false, not_false_eq_true,
    if_true, if_false, hreg]

/-- C11 at two objects bound to address 100, whose record counts 2: it counts 3 afterwards. -/
theorem assign_same_address_reincrements_witness :
    ∃ pre d post,
      [({ memPtr := 100, refcount := 2, isArray := false, arraySize := 0 } : PtrDetails)]
        = pre ++ d :: post ∧ (∀ e ∈ pre, e.memPtr ≠ 100) ∧ d.memPtr = 100 ∧
      Pointer.assign 0
          { refContainer := [{ memPtr := 100, refcount := 2, isArray := false, arraySize := 0 }]
            first := false, exitHooks := 1, freed := [] }
          { addr := 100, isArray := false, arraySize := 0 }
          { addr := 100, isArray := false, arraySize := 0 } =
        ({ refContainer := pre ++ { d with refcount := d.refcount + 1 } :: post
           first := false, exitHooks := 1, freed := [] },
          { addr := 100, isArray := false, arraySize := 0 }) :=
  assign_same_address_reincrements 0
    { refContainer := [{ memPtr := 100, refcount := 2, isArray := false, arraySize := 0 }]
      first := false, exitHooks := 1, freed := [] }
    { addr := 100, isArray := false, arraySize := 0 }
    { addr := 100, isArray := false, arraySize := 0 }
    (by decide) rfl ⟨_, List.mem_singleton.mpr rfl, rfl⟩

/-- C12, evaluated at the failing input: `h` is the only object bound to address 100 and `rv` the
only one bound to address 200; after `h = rv` the object `h` holds 200 and the record of 200
counts 2, but the record of 100 is still in the list with refcount 1 and nothing was released. -/
theorem assign_keeps_old_record :
    Pointer.assign 0 (Pointer.ctor 0 (Pointer.ctor 0 Statics.init 100).1 200).1
        (Pointer.ctor 0 Statics.init 100).2
        (Pointer.ctor 0 (Pointer.ctor 0 Statics.init 100).1 200).2
      = ({ refContainer := [{ memPtr := 100, refcount := 1, isArray := false, arraySize := 0 },
                            { memPtr := 200, refcount := 2, isArray := false, arraySize := 0 }]
           first := false, exitHooks := 1, freed := [] },
          { addr := 200, isArray := false, arraySize := 0 }) := by
  decide

/-- C13: the raw assignment `h = t` returns `t` and leaves the address of `h` equal to `t`, for
an empty or bound `h` and a null or non-null `t`; when `h` is empty and `t` is null the statics
are left as they were. -/
theorem assignRaw_returns_and_adopts (size : Int) (s : Statics) (h : Pointer) (t : Nat) :
    (Pointer.assignRaw size s h t).1 = t ∧ (Pointer.assignRaw size s h t).2.2.addr = t ∧
      (h.addr = 0 → t = 0 → (Pointer.assignRaw size s h t).2.1 = s) := by
  unfold Pointer.assignRaw
  by_cases h1 : h.addr = 0 <;> by_cases h2 : t = 0 <;> simp [h1, h2]

/-- C14: `operator*` throws the runtime error exactly when the address of the object is null;
when the address is not null it yields the value stored there; in both cases the statics and the
object are left as they were. -/
theorem deref_throws_iff_null {T : Type} (prettyFunction : String) (mem : Nat → T)
    (s : Statics) (h : Pointer) :
    ((∃ what, (Pointer.deref prettyFunction mem s h).1 = .error (.runtime_error what))
        ↔ h.addr = 0) ∧
      (h.addr ≠ 0 → (Pointer.deref prettyFunction mem s h).1 = .ok (mem h.addr)) ∧
      (Pointer.deref prettyFunction mem s h).2 = (s, h) := by
  unfold Pointer.deref
  by_cases h0 : h.addr = 0 <;> simp [h0]

/-- C15, as stated, fails: for `Pointer<T, -1>` the constructor builds a non-array object of
length 4294967295.  At the address `2^63 - 4`, with objects of 4 bytes, the sum
`addr + sizeof(T) * arraySize` passes `2^63` and `maxAddress` is negative, so `h == addr` is
`false` although `addr ≤ addr ≤ addr + length * sizeof(T)`. -/
theorem eqRaw_range_wraps :
    (Pointer.ctor (-1) Statics.init 9223372036854775804).2
        = { addr := 9223372036854775804, isArray := false, arraySize := 4294967295 } ∧
      ¬ (Pointer.eqRaw 4 (Pointer.ctor (-1) Statics.init 9223372036854775804).2
            9223372036854775804 = true ↔
          (Pointer.ctor (-1) Statics.init 9223372036854775804).2.addr ≤ 9223372036854775804 ∧
            9223372036854775804 ≤ (Pointer.ctor (-1) Statics.init 9223372036854775804).2.addr
              + (Pointer.ctor (-1) Statics.init 9223372036854775804).2.arraySize * 4) := by
  decide

/-- C15, amended: the decision of `h == ptr`.  For an array object and for a non-array object of
length 1 it is `ptr = addr`; for a non-array object of length above 1 whose end
`addr + length * sizeof(T)` is below `2^63`, so that it fits `intptr_t`, it is
`addr ≤ ptr ≤ addr + length * sizeof(T)`, both ends included. -/
theorem eqRaw_decision (sizeOfT : Nat) (h : Pointer) (ptr : Nat) :
    ((h.isArray = true ∨ (h.isArray = false ∧ h.arraySize = 1)) →
        (Pointer.eqRaw sizeOfT h ptr = true ↔ ptr = h.addr)) ∧
      ((h.isArray = false ∧ 1 < h.arraySize ∧
          h.addr + h.arraySize * sizeOfT < 9223372036854775808) →
        (Pointer.eqRaw sizeOfT h ptr = true ↔
          h.addr ≤ ptr ∧ ptr ≤ h.addr + h.arraySize * sizeOfT)) := by
  constructor
  · rintro (ha | ⟨ha, h1⟩)
    · simp only [Pointer.eqRaw, ha, if_true, beq_iff_eq]
      exact eq_comm
    · simp only [Pointer.eqRaw, ha, h1, Bool.false_eq_true, if_false, beq_self_eq_true, if_true,
        beq_iff_eq]
      exact eq_comm
  · rintro ⟨ha, h1, hfit⟩
    have hne : ¬ h.arraySize = 1 := by omega
    have hcomm : sizeOfT * h.arraySize = h.arraySize * sizeOfT := Nat.mul_comm _ _
    by_cases hg : h.addr < 18446744073709551616 ∧ ptr < 18446744073709551616
    · simp only [Pointer.eqRaw, ha, Bool.false_eq_true, if_false, beq_iff_eq, hne, hg,
        and_self, if_true, Bool.and_eq_true, decide_eq_true_eq, toIntptr, hcomm]
      generalize h.arraySize * sizeOfT = bytes at hfit ⊢
      split_ifs <;> omega
    · simp only [Pointer.eqRaw, ha, Bool.false_eq_true, if_false, beq_iff_eq, hne, hg,
        Bool.and_eq_true, decide_eq_true_eq, hcomm]
      generalize h.arraySize * sizeOfT = bytes at hfit ⊢
      omega

/-- C15, amended, at a non-array object of length 2 at address 100 with objects of 4 bytes: the
addresses 100 to 108 compare equal to it, 109 does not. -/
theorem eqRaw_decision_witness :
    (Pointer.eqRaw 4 { addr := 100, isArray := false, arraySize := 2 } 108 = true ↔
        100 ≤ 108 ∧ 108 ≤ 100 + 2 * 4) ∧
      (Pointer.eqRaw 4 { addr := 100, isArray := false, arraySize := 2 } 109 = true ↔
        100 ≤ 109 ∧ 109 ≤ 100 + 2 * 4) :=
  ⟨(eqRaw_decision 4 { addr := 100, isArray := false, arraySize := 2 } 108).2
      ⟨rfl, by decide, by decide⟩,
    (eqRaw_decision 4 { addr := 100, isArray := false, arraySize := 2 } 109).2
      ⟨rfl, by decide, by decide⟩⟩

/-- C16: if no two records have the same address before the call, none have after it, for
`registerPointer`, `collect`, `shutdown`, the two constructors, both assignment operators and the
destructor. -/
theorem noDupAddr_preserved (size : Int) (s : Statics) (h : NoDupAddr s) :
    (∀ ptr, NoDupAddr (registerPointer size s ptr).2) ∧
      NoDupAddr (collect s).2 ∧
      NoDupAddr (shutdown s) ∧
      (∀ t, NoDupAddr (Pointer.ctor size s t).1) ∧
      (∀ ob indeterminate, NoDupAddr (Pointer.copy s ob indeterminate).1) ∧
      (∀ this t, NoDupAddr (Pointer.assignRaw size s this t).2.1) ∧
      (∀ this rv, NoDupAddr (Pointer.assign size s this rv).1) ∧
      (∀ this, NoDupAddr (Pointer.dtor s this)) := by
  refine ⟨fun ptr => h.after_registerPointer size ptr, h.after_collect, ?_, ?_, ?_, ?_, ?_, ?_⟩
  · unfold shutdown
    by_cases h0 : refContainerSize s = 0
    · rw [if_pos h0]
      exact h
    · rw [if_neg h0]
      have hempty : (collect { s with
          refContainer := s.refContainer.map (fun p => { p with refcount := 0 }) }).2.refContainer
          = [] := by
        rw [collect_refContainer, List.filter_eq_nil_iff]
        intro d hd
        obtain ⟨e, _, rfl⟩ := List.mem_map.mp hd
        simp
      simp [NoDupAddr, hempty]
  · intro t
    unfold NoDupAddr
    rw [Pointer.ctor_refContainer]
    by_cases ht : t = 0
    · simpa [ht] using h
    · simpa [ht] using h.after_registerPointer size t
  · intro ob indeterminate
    rw [Pointer.copy_eq]
    exact h
  · intro this t
    unfold Pointer.assignRaw
    by_cases h1 : this.addr = 0 <;> by_cases h2 : t = 0
    · simpa [h1, h2] using h
    · simpa [h1, h2] using h.after_registerPointer size t
    · simpa [h1, h2] using h.after_cleanup this
    · simpa [h1, h2] using (h.after_cleanup this).after_registerPointer size t
  · intro this rv
    unfold Pointer.assign
    by_cases h1 : this.addr = 0 <;> by_cases h2 : rv.addr = 0
    · simpa [h1, h2] using h
    · simpa [h1, h2] using h.after_registerPointer size rv.addr
    · simpa [h1, h2] using h.after_cleanup this
    · by_cases h3 : this.addr = rv.addr
      · simpa [h1, h2, h3] using h.after_registerPointer size rv.addr
      · simpa [h1, h2, h3] using (h.after_cleanup this).after_registerPointer size rv.addr
  · intro this
    exact h.after_cleanup this

/-- C16 at a list with a live record for address 100 and a dead one for address 200. -/
theorem noDupAddr_preserved_witness :
    NoDupAddr
        { refContainer := [{ memPtr := 100, refcount := 1, isArray := false, arraySize := 0 },
                           { memPtr := 200, refcount := 0, isArray := false, arraySize := 0 }]
          first := false, exitHooks := 1, freed := [] } ∧
      NoDupAddr (registerPointer 0
        { refContainer := [{ memPtr := 100, refcount := 1, isArray := false, arraySize := 0 },
                           { memPtr := 200, refcount := 0, isArray := false, arraySize := 0 }]
          first := false, exitHooks := 1, freed := [] } 300).2 ∧
      NoDupAddr (collect
        { refContainer := [{ memPtr := 100, refcount := 1, isArray := false, arraySize := 0 },
                           { memPtr := 200, refcount := 0, isArray := false, arraySize := 0 }]
          first := false, exitHooks := 1, freed := [] }).2 :=
  ⟨by decide,
    (noDupAddr_preserved 0 _ (by decide)).1 300,
    (noDupAddr_preserved 0 _ (by decide)).2.1⟩

/-- For an object whose length, when it is an array object, is below 2147483648 (as is every
length taken from the `int` template argument), `begin()` and `end()` have the bounds `a` and
`a + n`, with `a` the address and `n` the length for an array object and 1 otherwise; `begin()`
is positioned at `a`, `end()` at `a + n`; statics and object are left as they were. -/
theorem begin_end_bounds (sizeOfT : Nat) (s : Statics) (h : Pointer)
    (hfit : h.isArray = true → h.arraySize < 2147483648) :
    Pointer.begin sizeOfT s h =
        ({ position := (h.addr : Int), lower := (h.addr : Int),
           upper := ptrAdd sizeOfT h.addr (if h.isArray then (h.arraySize : Int) else 1) },
          s, h) ∧
      Pointer.endIter sizeOfT s h =
        ({ position := ptrAdd sizeOfT h.addr (if h.isArray then (h.arraySize : Int) else 1),
           lower := (h.addr : Int),
           upper := ptrAdd sizeOfT h.addr (if h.isArray then (h.arraySize : Int) else 1) },
          s, h) := by
  cases ha : h.isArray with
  | false => simp [Pointer.begin, Pointer.endIter, ha]
  | true => simp [Pointer.begin, Pointer.endIter, ha, toInt_of_lt _ (hfit ha)]

/-- C17, evaluated at the failing input, for `Pointer<T, 13>` with objects of 4 bytes: `h` is
constructed from the raw address 100 and `c` is copy constructed from `h` into storage holding
2147483648, which stays the length of `c` since the copy constructor does not assign `arraySize`.
`begin()` has the upper bound and `end()` the position 100 - 4 * 2147483648, below the address:
neither 13 objects above it, the length of `h`, nor 2147483648 objects above it. -/
theorem copied_array_end_below_address :
    (Pointer.copy (Pointer.ctor 13 Statics.init 100).1 (Pointer.ctor 13 Statics.init 100).2
        2147483648).2 = { addr := 100, isArray := true, arraySize := 2147483648 } ∧
      (Pointer.begin 4 (Pointer.ctor 13 Statics.init 100).1
        (Pointer.copy (Pointer.ctor 13 Statics.init 100).1 (Pointer.ctor 13 Statics.init 100).2
          2147483648).2).1 = { position := 100, lower := 100, upper := -8589934492 } ∧
      (Pointer.endIter 4 (Pointer.ctor 13 Statics.init 100).1
        (Pointer.copy (Pointer.ctor 13 Statics.init 100).1 (Pointer.ctor 13 Statics.init 100).2
          2147483648).2).1 = { position := -8589934492, lower := 100, upper := -8589934492 } ∧
      ptrAdd 4 100 13 = 152 ∧ ptrAdd 4 100 2147483648 = 8589934692 := by
  decide

/-- C18, evaluated at the failing input: the only object bound to address 100 is assigned the raw
address 100.  The record of 100 is not swept and inserted anew with refcount 1: it stays in the
list, nothing is released, and `registerPointer` raises its refcount to 2. -/
theorem assignRaw_same_address_counts_twice :
    Pointer.assignRaw 0 (Pointer.ctor 0 Statics.init 100).1 (Pointer.ctor 0 Statics.init 100).2 100
      = (100,
          { refContainer := [{ memPtr := 100, refcount := 2, isArray := false, arraySize := 0 }]
            first := false, exitHooks := 1, freed := [] },
          { addr := 100, isArray := false, arraySize := 0 }) := by
  decide

/-- C19: when construction from a raw address, raw assignment or Pointer-to-Pointer assignment
leaves the object with a non-null address, the list after the operation holds a record for that
address whose refcount is at least 1. -/
theorem bound_object_has_live_record (size : Int) (s : Statics) (h rv : Pointer) (t : Nat) :
    ((Pointer.ctor size s t).2.addr ≠ 0 →
        ∃ d ∈ (Pointer.ctor size s t).1.refContainer,
          d.memPtr = (Pointer.ctor size s t).2.addr ∧ 1 ≤ d.refcount) ∧
      ((Pointer.assignRaw size s h t).2.2.addr ≠ 0 →
        ∃ d ∈ (Pointer.assignRaw size s h t).2.1.refContainer,
          d.memPtr = (Pointer.assignRaw size s h t).2.2.addr ∧ 1 ≤ d.refcount) ∧
      ((Pointer.assign size s h rv).2.addr ≠ 0 →
        ∃ d ∈ (Pointer.assign size s h rv).1.refContainer,
          d.memPtr = (Pointer.assign size s h rv).2.addr ∧ 1 ≤ d.refcount) := by
  refine ⟨?_, ?_, ?_⟩
  · intro hb
    rw [Pointer.ctor_addr] at hb ⊢
    rw [Pointer.ctor_refContainer, if_pos hb]
    exact registerPointer_has_record size s t
  · unfold Pointer.assignRaw
    by_cases h1 : h.addr = 0 <;> by_cases h2 : t = 0
    · simp [h1, h2]
    · simpa [h1, h2] using registerPointer_has_record size s t
    · simp [h1, h2]
    · simpa [h1, h2] using registerPointer_has_record size (Pointer.cleanup s h) t
  · unfold Pointer.assign
    by_cases h1 : h.addr = 0 <;> by_cases h2 : rv.addr = 0
    · simp [h1, h2]
    · simpa [h1, h2] using registerPointer_has_record size s rv.addr
    · simp [h1, h2]
    · by_cases h3 : h.addr = rv.addr
      · simpa [h1, h2, h3] using registerPointer_has_record size s rv.addr
      · simpa [h1, h2, h3] using registerPointer_has_record size (Pointer.cleanup s h) rv.addr

/-- C20: an object built by the constructor of `Pointer<T, 0>` is not an array object and has
length 0; whatever address `a` it holds, `h == ptr` is computed by the range test, whose upper end
is `a + sizeof(T) * 0`, and is true exactly when `ptr = a`. -/
theorem ctor_scalar_eqRaw_iff (sizeOfT : Nat) (s : Statics) (t a ptr : Nat) :
    (Pointer.ctor 0 s t).2.isArray = false ∧ (Pointer.ctor 0 s t).2.arraySize = 0 ∧
      Pointer.eqRaw sizeOfT { (Pointer.ctor 0 s t).2 with addr := a } ptr =
        (decide ((ptr : Int) ≥ (a : Int)) &&
          decide ((ptr : Int) ≤ (a : Int) + ((sizeOfT * 0 : Nat) : Int))) ∧
      (Pointer.eqRaw sizeOfT { (Pointer.ctor 0 s t).2 with addr := a } ptr = true ↔ ptr = a) := by
  have hflag : (Pointer.ctor 0 s t).2.isArray = false := by simp [Pointer.ctor]
  have hlen : (Pointer.ctor 0 s t).2.arraySize = 0 := by simp [Pointer.ctor, toUnsigned]
  have hiff : Pointer.eqRaw sizeOfT { (Pointer.ctor 0 s t).2 with addr := a } ptr = true
      ↔ ptr = a := by
    by_cases hg : a < 18446744073709551616 ∧ ptr < 18446744073709551616
    · simp only [Pointer.eqRaw, hflag, hlen, Bool.false_eq_true, if_false, beq_iff_eq,
        Nat.zero_ne_one, Nat.mul_zero, Nat.zero_mod, Nat.add_zero, hg, and_self, if_true,
        Bool.and_eq_true, decide_eq_true_eq, toIntptr]
      split_ifs <;> omega
    · simp only [Pointer.eqRaw, hflag, hlen, Bool.false_eq_true, if_false, beq_iff_eq,
        Nat.zero_ne_one, Nat.mul_zero, Nat.cast_zero, add_zero, hg, Bool.and_eq_true,
        decide_eq_true_eq]
      omega
  refine ⟨hflag, hlen, ?_, hiff⟩
  rw [Bool.eq_iff_iff, hiff]
  simp only [Nat.mul_zero, Nat.cast_zero, add_zero, Bool.and_eq_true, decide_eq_true_eq]
  omega

end GcPointer
